import Mathlib

/-
Verification of src/libpgmoneta/workers.c (pgmoneta worker pool).

Shallow embedding conventions:
- Pointers (function pointers, worker_common pointers) are modelled as
  opaque Nat addresses.
- The task queue's linked chain (front pointer, per-task previous link,
  rear pointer) is modelled as the Lean list of task nodes reachable
  from the front pointer, in front-to-rear order; the rear pointer is
  the last element of that list.
- The has_tasks binary semaphore is modelled by its value field
  (0 or 1); calls to semaphore_post inside queue_pull are additionally
  counted in the posts field of the pull result.
- C ints that stay non-negative on every path from initialisation
  (number_of_tasks) are modelled as Nat; others as Int.
-/

namespace Workers

/-- Model of struct task: function is the function pointer, wc the
worker_common pointer, both opaque addresses.  The previous link is
represented by the task's position in the queue's chain list. -/
structure Task where
  function : Nat
  wc : Nat
deriving DecidableEq

/-- Model of struct queue: number_of_tasks is the stored count, tasks
the chain of task nodes reachable from the front pointer (front first),
has_tasks the value of the has_tasks semaphore.  The rwmutex is not
part of the state. -/
structure Queue where
  number_of_tasks : Nat
  tasks : List Task
  has_tasks : Nat
deriving DecidableEq

/-- The front pointer of the queue: the first node of the chain. -/
def Queue.front (q : Queue) : Option Task := q.tasks.head?

/-- The rear pointer of the queue: the last node of the chain. -/
def Queue.rear (q : Queue) : Option Task := q.tasks.getLast?

/-- Model of queue_init with the semaphore allocation assumed to
succeed: count 0, front = rear = NULL, semaphore value 0. -/
def queue_init : Queue :=
  { number_of_tasks := 0, tasks := [], has_tasks := 0 }

/-- Model of queue_push: switch (queue->number_of_tasks) either makes
the task the only node (case 0) or hangs it off the rear node and
advances rear (default); then the count is incremented and
semaphore_post sets the semaphore value to 1. -/
def queue_push (q : Queue) (t : Task) : Queue :=
  if q.number_of_tasks = 0 then
    { number_of_tasks := 1, tasks := [t], has_tasks := 1 }
  else
    { number_of_tasks := q.number_of_tasks + 1,
      tasks := q.tasks ++ [t],
      has_tasks := 1 }

/-- Result of queue_pull: the returned task pointer (queue->front at
entry), the queue state at exit, and the number of semaphore_post calls
made during the pull. -/
structure PullResult where
  task : Option Task
  queue : Queue
  posts : Nat
deriving DecidableEq

/-- Model of queue_pull: task = queue->front; case 0 leaves the queue
untouched; case 1 empties it without posting; default advances front to
task->previous, decrements the count and re-posts the semaphore. -/
def queue_pull (q : Queue) : PullResult :=
  if q.number_of_tasks = 0 then
    { task := q.tasks.head?, queue := q, posts := 0 }
  else if q.number_of_tasks = 1 then
    { task := q.tasks.head?,
      queue := { number_of_tasks := 0, tasks := [], has_tasks := q.has_tasks },
      posts := 0 }
  else
    { task := q.tasks.head?,
      queue := { number_of_tasks := q.number_of_tasks - 1,
                 tasks := q.tasks.tail,
                 has_tasks := 1 },
      posts := 1 }

/-- The while loop of queue_clear: pull (and free) while the count is
non-zero.  The count strictly decreases on every iteration with a
non-zero count, so the loop runs at most the initial count's worth of
iterations; the fuel argument makes that explicit. -/
def clear_loop : Nat → Queue → Queue
  | 0, q => q
  | n + 1, q =>
      if q.number_of_tasks = 0 then q else clear_loop n (queue_pull q).queue

/-- Model of queue_clear: after the drain loop, front and rear are set
to NULL, semaphore_reset puts the semaphore value back to 0, and the
count is set to 0. -/
def queue_clear (q : Queue) : Queue :=
  let q1 := clear_loop q.number_of_tasks q
  { q1 with number_of_tasks := 0, tasks := [], has_tasks := 0 }

/-- Well-formedness of a queue: the stored count equals the number of
task nodes reachable from the front pointer. -/
def WF (q : Queue) : Prop := q.number_of_tasks = q.tasks.length

instance (q : Queue) : Decidable (WF q) :=
  inferInstanceAs (Decidable (_ = _))

/-- Push a whole list of tasks in order (repeated pgmoneta_workers_add
on the same queue). -/
def pushAll (q : Queue) (ts : List Task) : Queue := ts.foldl queue_push q

/-- Perform n pulls, collecting the returned tasks in order; stops
early if a pull returns NULL. -/
def drainN : Nat → Queue → List Task
  | 0, _ => []
  | n + 1, q =>
      match (queue_pull q).task with
      | none => []
      | some t => t :: drainN n (queue_pull q).queue

/-- Pull as many times as there are tasks, collecting the results. -/
def queue_drain (q : Queue) : List Task := drainN q.number_of_tasks q

lemma queue_push_tasks (q : Queue) (t : Task) (h : WF q) :
    (queue_push q t).tasks = q.tasks ++ [t] ∧ WF (queue_push q t) := by
  unfold WF at h ⊢
  unfold queue_push
  split
  · rename_i h0
    have : q.tasks = [] := List.length_eq_zero.mp (by omega)
    simp [this]
  · simp [h]

lemma pushAll_tasks (ts : List Task) :
    ∀ q : Queue, WF q →
      (pushAll q ts).tasks = q.tasks ++ ts ∧ WF (pushAll q ts) := by
  induction ts with
  | nil => intro q h; simpa [pushAll] using h
  | cons t rest ih =>
      intro q h
      obtain ⟨h1, h2⟩ := queue_push_tasks q t h
      obtain ⟨h3, h4⟩ := ih (queue_push q t) h2
      refine ⟨?_, h4⟩
      simp [pushAll] at h3 ⊢
      simp [h3, h1]

lemma drainN_succ (n : Nat) (q : Queue) :
    drainN (n + 1) q =
      match (queue_pull q).task with
      | none => []
      | some t => t :: drainN n (queue_pull q).queue := rfl

lemma drainN_eq (n : Nat) :
    ∀ q : Queue, WF q → q.number_of_tasks = n → drainN n q = q.tasks := by
  induction n with
  | zero =>
      intro q hwf h0
      unfold WF at hwf
      have : q.tasks = [] := List.length_eq_zero.mp (by omega)
      simp [drainN, this]
  | succ n ih =>
      intro q hwf hn
      have hlen : q.tasks.length = n + 1 := by
        unfold WF at hwf; omega
      obtain ⟨t, rest, hts⟩ : ∃ t rest, q.tasks = t :: rest := by
        cases h : q.tasks with
        | nil => rw [h] at hlen; simp at hlen
        | cons a l => exact ⟨a, l, rfl⟩
      have hrlen : rest.length = n := by rw [hts] at hlen; simpa using hlen
      cases n with
      | zero =>
          have hrest : rest = [] := List.length_eq_zero.mp hrlen
          simp [drainN, queue_pull, hn, hts, hrest]
      | succ m =>
          have hne0 : q.number_of_tasks ≠ 0 := by omega
          have hne1 : q.number_of_tasks ≠ 1 := by omega
          have hpull : queue_pull q =
              { task := some t,
                queue := { number_of_tasks := m + 1,
                           tasks := rest, has_tasks := 1 },
                posts := 1 } := by
            simp [queue_pull, hne0, hne1, hts]
            omega
          rw [drainN_succ, hpull, hts]
          have hq' : drainN (m + 1)
              { number_of_tasks := m + 1, tasks := rest, has_tasks := 1 }
              = rest :=
            ih _ (by unfold WF; simpa using hrlen.symm) rfl
          simp [hq']

/-- Claim C3: for every sequence of pushes onto a task queue starting
empty, pulling the tasks back returns them in exactly the order they
were pushed (FIFO): no reordering and no priority. -/
theorem fifo_order (ts : List Task) :
    queue_drain (pushAll queue_init ts) = ts := by
  obtain ⟨hts, hwf⟩ := pushAll_tasks ts queue_init rfl
  have hts' : (pushAll queue_init ts).tasks = ts := by simpa using hts
  unfold queue_drain
  rw [drainN_eq _ _ hwf rfl, hts']

/-- Claim C1: whenever queue_pull removes a task (the count at entry is
at least 1), it posts the has_tasks gate exactly when one or more tasks
remain after the removal, and does not post when the removal leaves the
queue empty. -/
theorem queue_pull_rearm (q : Queue) (h1 : 1 ≤ q.number_of_tasks) :
    ((queue_pull q).queue.number_of_tasks ≠ 0 → (queue_pull q).posts = 1)
  ∧ ((queue_pull q).queue.number_of_tasks = 0 → (queue_pull q).posts = 0) := by
  unfold queue_pull
  split
  · omega
  · split
    · simp
    · rename_i h0 hone
      constructor
      · intro _; rfl
      · intro hc; simp at hc; omega

/-- Concrete two-task queue for the C1 witness. -/
def q2 : Queue :=
  queue_push (queue_push queue_init { function := 0, wc := 0 })
    { function := 1, wc := 1 }

/-- Witness for C1 at a concrete two-task queue. -/
theorem queue_pull_rearm_witness :
    1 ≤ q2.number_of_tasks
  ∧ (((queue_pull q2).queue.number_of_tasks ≠ 0 → (queue_pull q2).posts = 1)
  ∧ ((queue_pull q2).queue.number_of_tasks = 0 → (queue_pull q2).posts = 0)) :=
  ⟨by decide, queue_pull_rearm q2 (by decide)⟩

/-- Claim C10: pulling from an empty queue (count zero) returns NULL
and has no other effect: count, chain (hence front and rear) and
semaphore are unchanged and the gate is not posted. -/
theorem pull_empty_noop (q : Queue) (hwf : WF q)
    (h0 : q.number_of_tasks = 0) :
    queue_pull q = { task := none, queue := q, posts := 0 } := by
  have ht : q.tasks = [] := by
    unfold WF at hwf
    exact List.length_eq_zero.mp (by omega)
  simp [queue_pull, h0, ht]

/-- Witness for C10 at the freshly initialised queue. -/
theorem pull_empty_noop_witness :
    queue_pull queue_init = { task := none, queue := queue_init, posts := 0 } :=
  pull_empty_noop queue_init rfl rfl

/-- Claim C5: the queue invariant (count equals the number of linked
tasks reachable from the front pointer) holds initially and is
preserved by push, pull and clear, and under it the count is zero
exactly when front and rear are both NULL. -/
theorem queue_invariant :
    WF queue_init
  ∧ (∀ q t, WF q → WF (queue_push q t))
  ∧ (∀ q, WF q → WF (queue_pull q).queue)
  ∧ (∀ q, WF (queue_clear q))
  ∧ (∀ q, WF q →
      (q.number_of_tasks = 0 ↔ q.front = none ∧ q.rear = none)) := by
  refine ⟨rfl, ?_, ?_, ?_, ?_⟩
  · intro q t h
    exact (queue_push_tasks q t h).2
  · intro q h
    unfold WF at h ⊢
    unfold queue_pull
    split
    · exact h
    · split
      · simp
      · rename_i h0 hone
        simp
        omega
  · intro q
    unfold WF queue_clear
    simp
  · intro q h
    unfold WF at h
    unfold Queue.front Queue.rear
    constructor
    · intro h0
      have : q.tasks = [] := List.length_eq_zero.mp (by omega)
      simp [this]
    · intro ⟨hf, _⟩
      have : q.tasks = [] := List.head?_eq_none_iff.mp hf
      rw [this] at h
      simpa using h

/-- Witness for C5 at concrete queues. -/
theorem queue_invariant_witness :
    WF (queue_push queue_init { function := 5, wc := 6 })
  ∧ WF (queue_pull q2).queue
  ∧ (queue_init.number_of_tasks = 0 ↔
      queue_init.front = none ∧ queue_init.rear = none) :=
  ⟨queue_invariant.2.1 queue_init { function := 5, wc := 6 } rfl,
   queue_invariant.2.2.1 q2 (by decide),
   queue_invariant.2.2.2.2 queue_init rfl⟩

/-- State of one pool as seen by the idle-signalling logic of
worker_do: the queue, the number_of_working counter, and the trace of
pthread_cond_signal calls on worker_all_idle, each recorded as the pair
(queue count, working count) at the moment of the call. -/
structure PoolSim where
  queue : Queue
  number_of_working : Nat
  signals : List (Nat × Nat)
deriving DecidableEq

/-- Atomic steps of the pool, each performed under the relevant lock in
worker_do and pgmoneta_workers_add: push is a queue_push; beginTask is
a worker waking from semaphore_wait, incrementing number_of_working and
then pulling; finishTask is a worker finishing its pulled task,
decrementing number_of_working and signalling worker_all_idle exactly
when the counter reaches 0 (a finishTask only ever follows a matching
beginTask, so the counter is positive when it applies). -/
inductive PoolAction where
  | push : Task → PoolAction
  | beginTask : PoolAction
  | finishTask : PoolAction
deriving DecidableEq

/-- One step of the pool state machine, following worker_do lines
326-345 and queue_push. -/
def pool_step (s : PoolSim) : PoolAction → PoolSim
  | .push t => { s with queue := queue_push s.queue t }
  | .beginTask =>
      { s with number_of_working := s.number_of_working + 1,
               queue := (queue_pull s.queue).queue }
  | .finishTask =>
      match s.number_of_working with
      | 0 => s
      | n + 1 =>
          if n = 0 then
            { s with number_of_working := 0,
                     signals := s.signals ++ [(s.queue.number_of_tasks, 0)] }
          else
            { s with number_of_working := n }

/-- Run a list of pool steps in order. -/
def pool_run (s : PoolSim) : List PoolAction → PoolSim
  | [] => s
  | a :: rest => pool_run (pool_step s a) rest

/-- The pool right after initialisation: empty queue, nobody working,
no idle signal raised yet. -/
def pool_start : PoolSim :=
  { queue := queue_init, number_of_working := 0, signals := [] }

/-- Counterexample to claim C2: with two tasks pushed and a single
worker pulling and finishing one of them, worker_do signals
worker_all_idle while one task is still queued, so the idle signal is
not raised only when the queue count and the working count are both
zero. -/
theorem idle_signal_nonempty_queue :
    ¬ ∀ p ∈ (pool_run pool_start
        [PoolAction.push { function := 0, wc := 0 },
         PoolAction.push { function := 1, wc := 1 },
         PoolAction.beginTask, PoolAction.finishTask]).signals,
      p.1 = 0 ∧ p.2 = 0 := by decide

lemma pool_run_signals_aux (acts : List PoolAction) :
    ∀ s : PoolSim, (∀ p ∈ s.signals, p.2 = 0) →
      ∀ p ∈ (pool_run s acts).signals, p.2 = 0 := by
  induction acts with
  | nil => intro s h; simpa [pool_run] using h
  | cons a rest ih =>
      intro s h
      simp only [pool_run]
      refine ih (pool_step s a) ?_
      cases a with
      | push t => simpa [pool_step] using h
      | beginTask => simpa [pool_step] using h
      | finishTask =>
          cases hn : s.number_of_working with
          | zero => simpa [pool_step, hn] using h
          | succ n =>
              by_cases h0 : n = 0
              · intro p hp
                simp only [pool_step, hn, h0, if_true] at hp
                simp only [List.mem_append, List.mem_singleton] at hp
                cases hp with
                | inl hp => exact h p hp
                | inr hp => simp [hp]
              · simpa [pool_step, hn, h0] using h

/-- Claim C2 amended: in every run of the pool from its initial state,
the idle condition variable is signalled only at moments when the
working count is zero; the queue count at such a moment may be
non-zero. -/
theorem idle_signal_working_zero (acts : List PoolAction) :
    ∀ p ∈ (pool_run pool_start acts).signals, p.2 = 0 :=
  pool_run_signals_aux acts pool_start (by simp [pool_start])

/-- Witness for the amended C2: a concrete run whose single recorded
signal has working count zero. -/
theorem idle_signal_working_zero_witness :
    ((0, 0) ∈ (pool_run pool_start
        [PoolAction.push { function := 0, wc := 0 },
         PoolAction.beginTask, PoolAction.finishTask]).signals)
  ∧ (((0 : Nat), (0 : Nat)).2 = 0) :=
  ⟨by decide,
   idle_signal_working_zero
     [PoolAction.push { function := 0, wc := 0 },
      PoolAction.beginTask, PoolAction.finishTask] (0, 0) (by decide)⟩

/-- Model of struct workers (the pool): the counters, the outcome flag
and the queue.  Thread handles, the worker array, the worker_lock mutex
and the worker_all_idle condition variable are not part of the state. -/
structure WorkerPool where
  number_of_alive : Int
  number_of_working : Int
  outcome : Bool
  queue : Queue
deriving DecidableEq

/-- The process-wide mutable state: worker_keepalive is a static
variable of the translation unit (workers.c line 41), not a field of
struct workers. -/
structure Global where
  worker_keepalive : Int
deriving DecidableEq

/-- Result of pgmoneta_workers_initialize: the process-wide state at
return, the return code, the pool written through the out parameter,
and the number of worker threads spawned (worker_init calls). -/
structure InitResult where
  global : Global
  ret : Nat
  workers : Option WorkerPool
  spawned : Nat
deriving DecidableEq

/-- Model of pgmoneta_workers_initialize with allocations assumed to
succeed.  The out parameter is nulled and worker_keepalive is set to 1
before the num < 1 check; on num < 1 the error path returns 1 with no
worker spawned and the out parameter still NULL.  Otherwise num workers
are spawned and the caller busy-waits (SLEEP(10) polling) until
number_of_alive == num before publishing the pool and returning 0. -/
def pgmoneta_workers_initialize (g : Global) (num : Int) : InitResult :=
  let g1 : Global := { g with worker_keepalive := 1 }
  if num < 1 then
    { global := g1, ret := 1, workers := none, spawned := 0 }
  else
    { global := g1, ret := 0,
      workers := some { number_of_alive := num, number_of_working := 0,
                        outcome := true, queue := queue_init },
      spawned := num.toNat }

/-- Model of pgmoneta_workers_destroy restricted to its effect on the
process-wide state: when the pool pointer is non-NULL it clears the
shared worker_keepalive flag; the broadcast loops, the wait for
number_of_alive to reach zero and the frees do not change that flag.
On a NULL pool nothing happens. -/
def pgmoneta_workers_destroy (g : Global) (w : Option WorkerPool) : Global :=
  match w with
  | none => g
  | some _ => { g with worker_keepalive := 0 }

/-- The loop guard a worker evaluates on each iteration of worker_do
(while (worker_keepalive)): it reads the process-wide flag and takes no
pool argument, so workers of every pool instance read the same flag. -/
def worker_keepalive_check (g : Global) : Bool := g.worker_keepalive != 0

/-- Claim C4: initialisation with size < 1 fails, spawns no worker
thread and leaves the out parameter NULL; with size = 1 it succeeds,
and the returned pool has exactly one alive worker (the busy-wait loop
does not let it return earlier). -/
theorem workers_init_boundary (g : Global) (num : Int) :
    (num < 1 →
        ( pgmoneta_workers_initialize g num).ret = 1
      ∧ ( pgmoneta_workers_initialize g num).workers = none
      ∧ ( pgmoneta_workers_initialize g num).spawned = 0)
  ∧ (num = 1 →
        ( pgmoneta_workers_initialize g num).ret = 0
      ∧ ( pgmoneta_workers_initialize g num).spawned = 1
      ∧ ∃ w, ( pgmoneta_workers_initialize g num).workers = some w
          ∧ w.number_of_alive = 1) := by
  constructor
  · intro hlt
    simp [ pgmoneta_workers_initialize, hlt]
  · intro h1
    subst h1
    refine ⟨?_, ?_, ?_⟩ <;>
      simp [ pgmoneta_workers_initialize]

/-- Witness for C4 at sizes 0, -1 and 1. -/
theorem workers_init_boundary_witness :
    (( pgmoneta_workers_initialize { worker_keepalive := 0 } 0).workers = none
      ∧ ( pgmoneta_workers_initialize { worker_keepalive := 0 } 0).spawned = 0)
  ∧ (( pgmoneta_workers_initialize { worker_keepalive := 0 } (-1)).workers = none
      ∧ ( pgmoneta_workers_initialize { worker_keepalive := 0 } (-1)).spawned = 0)
  ∧ ( pgmoneta_workers_initialize { worker_keepalive := 0 } 1).ret = 0 :=
  ⟨⟨((workers_init_boundary { worker_keepalive := 0 } 0).1 (by decide)).2.1,
    ((workers_init_boundary { worker_keepalive := 0 } 0).1 (by decide)).2.2⟩,
   ⟨((workers_init_boundary { worker_keepalive := 0 } (-1)).1 (by decide)).2.1,
    ((workers_init_boundary { worker_keepalive := 0 } (-1)).1 (by decide)).2.2⟩,
   ((workers_init_boundary { worker_keepalive := 0 } 1).2 rfl).1⟩

/-- Claim C8: the run/stop state is the single process-wide
worker_keepalive flag: every initialisation (of any pool, even a
failing one) sets it to 1, every destroy of a non-NULL pool sets it to
0, and the loop guard any worker of any pool evaluates reads that same
flag, so destroying one pool stops the workers of every other pool
initialised earlier. -/
theorem keepalive_shared :
    (∀ (g : Global) (num : Int),
      ( pgmoneta_workers_initialize g num).global.worker_keepalive = 1)
  ∧ (∀ (g : Global) (w : WorkerPool),
      (pgmoneta_workers_destroy g (some w)).worker_keepalive = 0)
  ∧ (∀ (g : Global) (numA numB : Int) (wB : WorkerPool),
      worker_keepalive_check
        (pgmoneta_workers_destroy
          (( pgmoneta_workers_initialize
              (( pgmoneta_workers_initialize g numA).global) numB).global)
          (some wB)) = false) := by
  refine ⟨?_, ?_, ?_⟩
  · intro g num
    unfold pgmoneta_workers_initialize
    split <;> rfl
  · intro g w
    rfl
  · intro g numA numB wB
    rfl

/-- Model of pgmoneta_workers_add.  allocOk is the outcome of the
malloc of the task node; on a NULL pool or a failed malloc the error
path returns 1 with no other effect, otherwise the function and the
worker_common pointer are wrapped into a task which is pushed. -/
def pgmoneta_workers_add (workers : Option WorkerPool) (allocOk : Bool)
    (func : Nat) (wc : Nat) : Nat × Option WorkerPool :=
  match workers with
  | some w =>
      if allocOk then
        (0, some { w with
          queue := queue_push w.queue { function := func, wc := wc } })
      else
        (1, some w)
  | none => (1, none)

/-- Claim C6: submit fails exactly when the pool reference is NULL or
the task allocation fails; a failed submit leaves the pool (in
particular the queue) unchanged; a successful submit wraps the function
and payload into a task and pushes it, for every pool state, so it
never depends on (or blocks on) worker availability. -/
theorem workers_add_spec (workers : Option WorkerPool) (allocOk : Bool)
    (func wc : Nat) :
    (( pgmoneta_workers_add workers allocOk func wc).1 = 1 ↔
      workers = none ∨ allocOk = false)
  ∧ (( pgmoneta_workers_add workers allocOk func wc).1 = 1 →
      ( pgmoneta_workers_add workers allocOk func wc).2 = workers)
  ∧ (∀ w, workers = some w → allocOk = true →
      pgmoneta_workers_add workers allocOk func wc
        = (0, some { w with
            queue := queue_push w.queue { function := func, wc := wc } })) := by
  refine ⟨?_, ?_, ?_⟩
  · cases workers with
    | none => simp [ pgmoneta_workers_add]
    | some w =>
        cases allocOk <;> simp [ pgmoneta_workers_add]
  · cases workers with
    | none => intro _; rfl
    | some w =>
        cases allocOk with
        | false => intro _; rfl
        | true => intro h; simp [ pgmoneta_workers_add] at h
  · intro w hw ha
    subst hw; subst ha
    rfl

/-- Concrete one-worker pool for the C6 witness. -/
def samplePool : WorkerPool :=
  { number_of_alive := 1, number_of_working := 0,
    outcome := true, queue := queue_init }

/-- Witness for C6: a NULL pool fails without effect, a valid pool with
a successful allocation pushes the wrapped task. -/
theorem workers_add_spec_witness :
    (( pgmoneta_workers_add none true 0 0).1 = 1)
  ∧ (( pgmoneta_workers_add none true 0 0).2 = none)
  ∧ pgmoneta_workers_add (some samplePool) true 3 4
      = (0, some { samplePool with
          queue := queue_push samplePool.queue { function := 3, wc := 4 } }) :=
  ⟨(workers_add_spec none true 0 0).1.mpr (Or.inl rfl),
   (workers_add_spec none true 0 0).2.1 (by decide),
   (workers_add_spec (some samplePool) true 3 4).2.2 samplePool rfl rfl⟩

/-- Model of one entry of config->common.servers: only the workers
field is read by pgmoneta_get_number_of_workers. -/
structure ServerConfig where
  workers : Int
deriving DecidableEq

/-- Model of struct main_configuration as read through shmem: the
global workers field and the servers array, the latter modelled as a
function from server index to entry. -/
structure MainConfiguration where
  workers : Int
  servers : Nat → ServerConfig

/-- The clamp bound of pgmoneta_get_number_of_workers: get_nprocs()
(passed as some n) under HAVE_LINUX, the constant 16 otherwise. -/
def proc_bound : Option Int → Int
  | some n => n
  | none => 16

/-- Model of pgmoneta_get_number_of_workers: the per-server workers
setting when it is not -1, the global one otherwise, then
nw = MIN(nw, bound). -/
def pgmoneta_get_number_of_workers (config : MainConfiguration)
    (server : Nat) (nprocs : Option Int) : Int :=
  let nw : Int :=
    if (config.servers server).workers ≠ -1 then (config.servers server).workers
    else config.workers
  match nprocs with
  | some n => min nw n
  | none => min nw 16

/-- Claim C9: the resolver returns the per-server configured count when
it is not -1 and the global configured count otherwise, in both cases
clamped to at most the processor bound (get_nprocs() on Linux, 16
elsewhere). -/
theorem number_of_workers_spec (config : MainConfiguration) (server : Nat)
    (nprocs : Option Int) :
    pgmoneta_get_number_of_workers config server nprocs ≤ proc_bound nprocs
  ∧ ((config.servers server).workers ≠ -1 →
      pgmoneta_get_number_of_workers config server nprocs
        = min (config.servers server).workers (proc_bound nprocs))
  ∧ ((config.servers server).workers = -1 →
      pgmoneta_get_number_of_workers config server nprocs
        = min config.workers (proc_bound nprocs)) := by
  refine ⟨?_, ?_, ?_⟩
  · cases nprocs with
    | none =>
        simp only [ pgmoneta_get_number_of_workers, proc_bound]
        exact min_le_right _ _
    | some n =>
        simp only [ pgmoneta_get_number_of_workers, proc_bound]
        exact min_le_right _ _
  · intro hne
    cases nprocs <;> simp [ pgmoneta_get_number_of_workers, proc_bound, hne]
  · intro heq
    cases nprocs <;> simp [ pgmoneta_get_number_of_workers, proc_bound, heq]

/-- Concrete configuration for the C9 witness: every server inherits
the global count. -/
def sampleConfig : MainConfiguration :=
  { workers := 8, servers := fun _ => { workers := -1 } }

/-- Witness for C9: with global count 8 and 4 processors the resolver
returns min 8 4. -/
theorem number_of_workers_spec_witness :
    pgmoneta_get_number_of_workers sampleConfig 0 (some 4) = min 8 4 :=
  (number_of_workers_spec sampleConfig 0 (some 4)).2.2 rfl

/-- Model of struct worker_common as far as
pgmoneta_create_worker_input writes it: the workers back pointer. -/
structure WorkerCommon where
  workers : Option WorkerPool
deriving DecidableEq

/-- Modelled from the spec: struct worker_input is declared in
workers.h, which is not among the sources here; the spec describes
directory, from and to as bounded-length text fields of a fixed
capacity.  Each field below holds the exact byte sequence the code
writes into it, so a write stays inside the field exactly when its
length is at most the capacity. -/
structure WorkerInput where
  directory : List Char
  from' : List Char
  to' : List Char
  level : Int
  data : Option Nat
  failed : Option Nat
  all : Option Nat
  common : WorkerCommon
deriving DecidableEq

/-- The bytes one memcpy of pgmoneta_create_worker_input writes for a
text argument: strlen(s) bytes of s when the pointer is non-NULL and
strlen(s) > 0, nothing otherwise (the field keeps the bytes of the
memset). -/
def copied_bytes : Option (List Char) → List Char
  | none => []
  | some s => if 0 < s.length then s else []

/-- Model of pgmoneta_create_worker_input with allocOk the outcome of
the malloc: on failure it returns 1 with the out parameter NULL;
otherwise the struct is zeroed and each non-empty text argument is
memcpy'd in full -- nothing bounds the copied length. -/
def pgmoneta_create_worker_input (directory fromArg toArg : Option (List Char))
    (level : Int) (workers : Option WorkerPool) (allocOk : Bool) :
    Nat × Option WorkerInput :=
  if allocOk then
    (0, some { directory := copied_bytes directory,
               from' := copied_bytes fromArg,
               to' := copied_bytes toArg,
               level := level,
               data := none, failed := none, all := none,
               common := { workers := workers } })
  else
    (1, none)

/-- Modelled from the spec: a write into a fixed-capacity text field is
out of bounds when more bytes are written than the capacity. -/
def field_overflow (cap : Nat) (written : List Char) : Prop :=
  cap < written.length

/-- Claim C7 is violated by the code: whatever the fixed capacity of
the directory field is, a directory argument one byte longer is copied
in full past the field's bounds -- it is neither truncated nor
rejected. -/
theorem worker_input_overflow (cap : Nat) :
    ∃ w, ( pgmoneta_create_worker_input
            (some (List.replicate (cap + 1) 'a')) none none 0 none true).2
          = some w
      ∧ w.directory = List.replicate (cap + 1) 'a'
      ∧ field_overflow cap w.directory := by
  refine ⟨_, rfl, ?_, ?_⟩
  · simp [copied_bytes]
  · simp [field_overflow, copied_bytes]

end Workers
